import Mathlib

/-!
Verification development for the TruthDetect/TruthLens service layer
(`services/geminiService.ts` and the two page components that consume it).

JavaScript strings are modeled as `List Char` (sequences of code points);
`String` wrappers are used at the API boundary.  The host runtime's
`JSON.parse` is abstracted as a parameter `parse : List Char → Option α`
(a `none` result models a thrown `SyntaxError`, which the callers catch).
All other string operations used by the source (`trim`, `startsWith`,
`substring`, `split`, the trending-topics regular expression, `parseInt`)
are modeled explicitly below, following ECMAScript semantics.
-/

namespace TruthDetect

/-- ECMAScript whitespace (the common members of the `\s` class and the
set removed by `String.prototype.trim`): space, tab, LF, CR, VT, FF,
NBSP, BOM, and the two Unicode line separators. -/
def isJsWs (c : Char) : Bool :=
  c = ' ' || c = '\t' || c = '\n' || c = '\r' ||
  c = Char.ofNat 11 || c = Char.ofNat 12 || c = Char.ofNat 160 ||
  c = Char.ofNat 65279 || c = Char.ofNat 8232 || c = Char.ofNat 8233

/-- What the regex metacharacter `.` matches (no `s` flag): any character
except the four ECMAScript line terminators. -/
def isDotChar (c : Char) : Bool :=
  !(c = '\n' || c = '\r' || c = Char.ofNat 8232 || c = Char.ofNat 8233)

/-- The regex class `\d`: the ASCII digits. -/
def isDigitChar (c : Char) : Bool := '0' ≤ c && c ≤ '9'

/-- `String.prototype.trim`: drop leading and trailing whitespace. -/
def trimL (l : List Char) : List Char :=
  ((l.dropWhile isJsWs).reverse.dropWhile isJsWs).reverse

/-- `String.prototype.trim` at the `String` level. -/
def jsTrim (s : String) : String := ⟨trimL s.data⟩

/-- Match a literal prefix, returning the remainder on success
(`undefined`/failure is `none`). -/
def dropPrefixL : List Char → List Char → Option (List Char)
  | [], l => some l
  | _ :: _, [] => none
  | p :: ps, c :: cs => if p = c then dropPrefixL ps cs else none

/-- `String.prototype.startsWith`. -/
def startsWithL (l pre : List Char) : Bool := (dropPrefixL pre l).isSome

/-- `String.prototype.substring(start, end)`: clamp both indices to
`[0, length]`, swap them if out of order, and slice. -/
def substringL (l : List Char) (start finish : Int) : List Char :=
  let len : Int := l.length
  let a := min (max start 0) len
  let b := min (max finish 0) len
  (l.take (max a b).toNat).drop (min a b).toNat

/-- `String.prototype.split('\n')`. -/
def splitNlL : List Char → List (List Char)
  | [] => [[]]
  | c :: t =>
    if c = '\n' then [] :: splitNlL t
    else
      match splitNlL t with
      | [] => [[c]]
      | h :: r => (c :: h) :: r

/-- `text.split('\n')` at the `String` level. -/
def splitLinesJs (s : String) : List String := (splitNlL s.data).map String.mk

/-- `parseInt(ds, 10)` on a non-empty ASCII digit string. -/
def digitsToNat (ds : List Char) : Nat :=
  ds.foldl (fun acc c => 10 * acc + (c.toNat - 48)) 0

/-! ### The response normalizer `cleanAndParseJson`

Source:
```
const cleanAndParseJson = (text: string) => {
  let cleanedText = text.trim();
  if (cleanedText.startsWith('```json')) {
    cleanedText = cleanedText.substring(7, cleanedText.length - 3).trim();
  } else if (cleanedText.startsWith('```')) {
    cleanedText = cleanedText.substring(3, cleanedText.length - 3).trim();
  }
  return JSON.parse(cleanedText);
};
```
-/

/-- The characters of the opening fence tag. -/
def fenceJson : List Char := "```json".data

/-- The characters of a bare fence. -/
def fenceBare : List Char := "```".data

/-- The backquote character (the fence delimiter). -/
def bq : Char := Char.ofNat 96

/-- The fence-stripping portion of `cleanAndParseJson` (everything before
the final `JSON.parse` call). -/
def cleanJsonTextL (text : List Char) : List Char :=
  let cleanedText := trimL text
  if startsWithL cleanedText fenceJson then
    trimL (substringL cleanedText 7 ((cleanedText.length : Int) - 3))
  else if startsWithL cleanedText fenceBare then
    trimL (substringL cleanedText 3 ((cleanedText.length : Int) - 3))
  else cleanedText

/-- `cleanAndParseJson`, with the host `JSON.parse` abstracted as `parse`
(`none` models a thrown `SyntaxError`). -/
def cleanAndParseJson {α : Type} (parse : List Char → Option α)
    (text : List Char) : Option α :=
  parse (cleanJsonTextL text)

/-! ### The trending-topics line parser

Source (inside `getTrendingTopics`):
```
const match = line.match(/(?:\d+\.\s*)?(.*?)\s*-\s*Risk:\s*(.*?)\s*-\s*Credibility:\s*(\d+)/);
if (match) {
    return {
        topic: match[1].trim().replace(/^"|"$/g, ''),
        risk: match[2].trim(),
        score: parseInt(match[3], 10),
    };
}
return null;
```

The regex engine's backtracking is deterministic for this pattern:
every `\s*` is followed in the pattern by a character that is never
whitespace (`-`, `R`, `C`, a digit, or a lazily growing group tried at
the current position first), so each `\s*` always consumes the maximal
whitespace run; `\d+` is followed by `.` (not a digit) or by nothing, so
it always consumes the maximal digit run; and each lazy `(.*?)` grows
one character at a time, re-trying the rest of the pattern at every
position, taking the first success.  The functions below implement
exactly that search order.
-/

/-- The literal `Risk:` of the pattern. -/
def riskLit : List Char := "Risk:".data

/-- The literal `Credibility:` of the pattern. -/
def credLit : List Char := "Credibility:".data

/-- Try `\s*-\s*Risk:` at the current position; return the remainder
after `Risk:` on success. -/
def matchDelimRisk (t : List Char) : Option (List Char) :=
  match t.dropWhile isJsWs with
  | c :: t2 => if c = '-' then dropPrefixL riskLit (t2.dropWhile isJsWs) else none
  | [] => none

/-- Try `\s*-\s*Credibility:\s*(\d+)` at the current position; return the
captured digit run on success. -/
def matchDelimCred (t : List Char) : Option (List Char) :=
  match t.dropWhile isJsWs with
  | c :: t2 =>
    if c = '-' then
      match dropPrefixL credLit (t2.dropWhile isJsWs) with
      | some t3 =>
        let ds := (t3.dropWhile isJsWs).takeWhile isDigitChar
        if ds = [] then none else some ds
      | none => none
    else none
  | [] => none

/-- The lazy group `(.*?)` before `\s*-\s*Credibility:\s*(\d+)`: at each
position first try the rest of the pattern, then extend the capture by
one `.`-matchable character.  Returns (captured group, digit run). -/
def credSearch : List Char → List Char → Option (List Char × List Char)
  | acc, t =>
    match matchDelimCred t with
    | some ds => some (acc.reverse, ds)
    | none =>
      match t with
      | [] => none
      | c :: t' => if isDotChar c then credSearch (c :: acc) t' else none

/-- The lazy group `(.*?)` before `\s*-\s*Risk:…`: at each position first
try the whole rest of the pattern (including the second group and the
digits), then extend by one character.  Returns (group 1, group 2,
digit run). -/
def riskSearch : List Char → List Char → Option (List Char × List Char × List Char)
  | acc, t =>
    match (matchDelimRisk t).bind (fun r => credSearch [] (r.dropWhile isJsWs)) with
    | some (g2, ds) => some (acc.reverse, g2, ds)
    | none =>
      match t with
      | [] => none
      | c :: t' => if isDotChar c then riskSearch (c :: acc) t' else none

/-- The optional leading ordinal `(?:\d+\.\s*)?`: if a non-empty digit
run followed by `.` is present, consume it and the following whitespace
(the greedy option is taken first and, as shown by the determinism
argument above, its failure implies failure of the skipped option). -/
def stripOrdinal (t : List Char) : List Char :=
  let ds := t.takeWhile isDigitChar
  if ds = [] then t
  else
    match t.drop ds.length with
    | c :: r => if c = '.' then r.dropWhile isJsWs else t
    | [] => t

/-- Attempt the whole pattern anchored at the current position. -/
def matchAtPos (t : List Char) : Option (List Char × List Char × List Char) :=
  riskSearch [] (stripOrdinal t)

/-- `String.prototype.match` without the `g` flag: try each start
position left to right and keep the first success. -/
def scanMatch : List Char → Option (List Char × List Char × List Char)
  | [] => matchAtPos []
  | c :: t' =>
    match matchAtPos (c :: t') with
    | some m => some m
    | none => scanMatch t'

/-- `replace(/^"|"$/g, '')`: remove one leading and one trailing double
quote, if present (the two alternatives of the global regex). -/
def stripQuotes (l : List Char) : List Char :=
  let l1 := match l with
    | c :: t => if c = '"' then t else l
    | [] => l
  match l1.reverse with
  | c :: t => if c = '"' then t.reverse else l1
  | [] => l1

/-- A parsed trending-topics record. -/
structure TrendingTopic where
  topic : String
  risk : String
  score : Nat
deriving DecidableEq, Repr

/-- One arrow of the `.map` in `getTrendingTopics`: match the line
against the pattern and build the record (`none` is the `null` return). -/
def parseLineChars (l : List Char) : Option TrendingTopic :=
  match scanMatch l with
  | some (g1, g2, ds) =>
    some ⟨⟨stripQuotes (trimL g1)⟩, ⟨trimL g2⟩, digitsToNat ds⟩
  | none => none

/-- The line parser at the `String` level. -/
def parseTrendingLine (line : String) : Option TrendingTopic :=
  parseLineChars line.data

/-- `text.split('\n').map(line => …).filter(item => item !== null)`:
mapping each line through the parser and keeping the non-`null` results
is `List.filterMap`. -/
def parseTrendingTopics (lines : List String) : List TrendingTopic :=
  lines.filterMap parseTrendingLine

/-- The synthetic record returned when nothing parsed but the model
returned non-empty text. -/
def placeholderTopic : TrendingTopic :=
  ⟨"Could not parse trending topics.", "Medium", 50⟩

/-- The synthetic record returned when the model call itself failed. -/
def errorTopic : TrendingTopic :=
  ⟨"Error fetching topics.", "High", 0⟩

/-- `getTrendingTopics`, as a function of the outcome of the model call
(`Except.error` models a rejected promise, `Except.ok text` a response
whose `.text` is `text`). -/
def getTrendingTopics (resp : Except Unit String) : List TrendingTopic :=
  match resp with
  | Except.error _ => [errorTopic]
  | Except.ok text =>
    let topics := parseTrendingTopics (splitLinesJs text)
    if 0 < topics.length then topics.take 5
    else if text ≠ "" then [placeholderTopic]
    else []

/-! ### A model of JSON values and their serialized text

Used to state the fence-stripping property: `renderChars v` is the
(compact, `JSON.stringify`-style) text of the value `v`.  The escaping
of exotic characters inside strings is immaterial to every property
proved below; only the first character of the rendering matters. -/

/-- A JSON value.  Numbers are modeled as integers; the numeric
rendering below covers exactly those, which suffices for the properties
at issue (none of which depend on the number format). -/
inductive JsonValue where
  | null : JsonValue
  | bool (b : Bool) : JsonValue
  | num (n : Int) : JsonValue
  | str (s : String) : JsonValue
  | arr (xs : List JsonValue) : JsonValue
  | obj (fields : List (String × JsonValue)) : JsonValue

/-- The decimal digit character for `n % 10`. -/
def digitChar (n : Nat) : Char := Char.ofNat (48 + n % 10)

/-- The decimal digits of a natural number, most significant first. -/
def natDigits (n : Nat) : List Char :=
  if _h : n < 10 then [digitChar n]
  else natDigits (n / 10) ++ [digitChar n]
termination_by n
decreasing_by exact Nat.div_lt_self (by omega) (by omega)

/-- The decimal rendering of an integer. -/
def intChars : Int → List Char
  | Int.ofNat m => natDigits m
  | Int.negSucc m => '-' :: natDigits (m + 1)

/-- Minimal string-body escaping (quotes and backslashes). -/
def escapeChars : List Char → List Char
  | [] => []
  | c :: t =>
    if c = '"' then '\\' :: '"' :: escapeChars t
    else if c = '\\' then '\\' :: '\\' :: escapeChars t
    else c :: escapeChars t

mutual

/-- The serialized text of a JSON value (compact, no surrounding
whitespace), as a character list. -/
def renderChars : JsonValue → List Char
  | JsonValue.null => "null".data
  | JsonValue.bool true => "true".data
  | JsonValue.bool false => "false".data
  | JsonValue.num n => intChars n
  | JsonValue.str s => '"' :: escapeChars s.data ++ ['"']
  | JsonValue.arr xs => '[' :: renderArr xs ++ [']']
  | JsonValue.obj fs => Char.ofNat 123 :: renderObj fs ++ [Char.ofNat 125]

/-- Comma-separated renderings of the elements of an array. -/
def renderArr : List JsonValue → List Char
  | [] => []
  | [x] => renderChars x
  | x :: y :: t => renderChars x ++ ',' :: renderArr (y :: t)

/-- Comma-separated renderings of the fields of an object. -/
def renderObj : List (String × JsonValue) → List Char
  | [] => []
  | [(k, v)] => '"' :: escapeChars k.data ++ '"' :: ':' :: renderChars v
  | (k, v) :: kv :: t =>
    ('"' :: escapeChars k.data ++ '"' :: ':' :: renderChars v) ++
      ',' :: renderObj (kv :: t)

end

/-- The serialized text of a JSON value, as a `String`. -/
def renderJson (v : JsonValue) : String := ⟨renderChars v⟩

/-- Wrap a text in a markdown code fence tagged `json`. -/
def fenceWrapJson (s : String) : String := ⟨fenceJson ++ s.data ++ fenceBare⟩

/-! ### `analyzeImageForAI`

Source: the model call and `cleanAndParseJson` are wrapped in
`try … catch`, and the catch branch returns
`{ classification: 'Uncertain', confidence: 0, explanation: 'An error occurred during analysis.' }`.
The outcome of the model call is passed in as `resp` (`Except.error`
models a rejected promise), and `JSON.parse` as `parse`. -/

/-- The structured image verdict. -/
structure ImageVerdict where
  classification : String
  confidence : Nat
  explanation : String
deriving DecidableEq, Repr

/-- The catch-branch fallback of `analyzeImageForAI`. -/
def imageFallback : ImageVerdict :=
  ⟨"Uncertain", 0, "An error occurred during analysis."⟩

/-- `analyzeImageForAI`: on a successful call, parse the response text
through `cleanAndParseJson`; any failure (of the call or of the parse)
is caught and replaced by `imageFallback`. -/
def analyzeImageForAI (parse : List Char → Option ImageVerdict)
    (resp : Except Unit String) : ImageVerdict :=
  match resp with
  | Except.error _ => imageFallback
  | Except.ok text =>
    match cleanAndParseJson parse text.data with
    | some v => v
    | none => imageFallback

/-! ### `generateAwarenessTemplateText` and the page handler -/

/-- The structured template content. -/
structure TemplateContent where
  title : String
  highlights : List String
  tips : List String
deriving DecidableEq, Repr

/-- The catch-branch fallback of `generateAwarenessTemplateText`. -/
def templateFallback : TemplateContent :=
  ⟨"Error", ["Could not generate content."], []⟩

/-- `generateAwarenessTemplateText`: same try/parse/catch shape as the
other analysis operations. -/
def generateAwarenessTemplateText (parse : List Char → Option TemplateContent)
    (resp : Except Unit String) : TemplateContent :=
  match resp with
  | Except.error _ => templateFallback
  | Except.ok text =>
    match cleanAndParseJson parse text.data with
    | some v => v
    | none => templateFallback

/-- The local state of the awareness-templates page (the `useState`
hooks of `AwarenessTemplatesPage`). -/
structure TemplateState where
  isLoading : Bool
  result : Option TemplateContent
  error : Option String
deriving DecidableEq, Repr

/-- `handleGenerate` of `AwarenessTemplatesPage`.  The gateway call
`generateAwarenessTemplateText` is passed in as `gateway`; the returned
`Bool` records whether the gateway was invoked.  Source:
```
if (!prompt.trim()) { setError("Prompt cannot be empty."); return; }
setIsLoading(true); setResult(null); setError(null);
try { const generatedContent = await generateAwarenessTemplateText(prompt);
      setResult(generatedContent); }
catch (err) { setError("Failed to generate the template. Please try again."); }
finally { setIsLoading(false); }
```
-/
def handleGenerate (gateway : String → Except Unit TemplateContent)
    (prompt : String) (st : TemplateState) : TemplateState × Bool :=
  if (jsTrim prompt).data = [] then
    ({ st with error := some "Prompt cannot be empty." }, false)
  else
    let st1 : TemplateState := { isLoading := true, result := none, error := none }
    match gateway prompt with
    | Except.ok content =>
      ({ st1 with result := some content, isLoading := false }, true)
    | Except.error _ =>
      ({ st1 with error := some "Failed to generate the template. Please try again.",
                  isLoading := false }, true)

/-! ### Module initialization

Source:
```
const API_KEY = process.env.API_KEY;
if (!API_KEY) { throw new Error("API_KEY environment variable not set"); }
const ai = new GoogleGenAI({ apiKey: API_KEY });
```
`process.env.API_KEY` is `string | undefined`; `!API_KEY` is true for
`undefined` and for the empty string. -/

/-- The gateway client constructed at module load. -/
structure GoogleGenAI where
  apiKey : String
deriving DecidableEq, Repr

/-- Module-load initialization of the service layer: `Except.error`
models the thrown fatal error, `Except.ok` the constructed client. -/
def moduleInit (env : Option String) : Except String GoogleGenAI :=
  match env with
  | none => Except.error "API_KEY environment variable not set"
  | some k =>
    if k = "" then Except.error "API_KEY environment variable not set"
    else Except.ok ⟨k⟩

/-! ### Spec-side definition for the order/drop property

`matchingRecords` follows the words of the specification: the records of
the matching lines, in the original order, with non-matching lines
dropped.  Claim C4 is settled by comparing it with
`parseTrendingTopics`, which is translated from the code. -/

/-- Modelled from the spec: the parse results of exactly the matching
lines, in the input order. -/
def matchingRecords : List String → List TrendingTopic
  | [] => []
  | l :: ls =>
    match parseTrendingLine l with
    | some r => r :: matchingRecords ls
    | none => matchingRecords ls

/-- The invariant claimed for parsed records: a recognized risk level
and a credibility score of at most 100. -/
def riskScoreClaim (r : TrendingTopic) : Prop :=
  (r.risk = "High" ∨ r.risk = "Medium" ∨ r.risk = "Low" ∨ r.risk = "Unknown") ∧
  r.score ≤ 100

instance (r : TrendingTopic) : Decidable (riskScoreClaim r) := by
  unfold riskScoreClaim; infer_instance

/-- A 7-line response of which exactly two lines match the pattern. -/
def sevenLines : List String :=
  ["Intro:",
   "1. Vaccine microchips - Risk: High - Credibility: 10",
   "",
   "Some commentary",
   "2. Election fraud claims - Risk: Medium - Credibility: 35",
   "- just a dash",
   "Thanks!"]

/-- A response text with six matching lines. -/
def sixLineText : String :=
  "1. A - Risk: High - Credibility: 10\n2. B - Risk: Low - Credibility: 20\n3. C - Risk: High - Credibility: 30\n4. D - Risk: Medium - Credibility: 40\n5. E - Risk: Low - Credibility: 50\n6. F - Risk: High - Credibility: 60"

/-! ## Theorems -/

/-- C3: applied to the single line
`1. Fake vaccine claim - Risk: High - Credibility: 12`, the
trending-topics line parser yields exactly the record
with topic `Fake vaccine claim`, risk `High`, and score 12. -/
theorem parseTrendingLine_c3_example :
    parseTrendingLine "1. Fake vaccine claim - Risk: High - Credibility: 12" =
      some ⟨"Fake vaccine claim", "High", 12⟩ := by decide

/-- C10: if the model call succeeds but the raw response text is empty,
`getTrendingTopics` returns the empty list — neither the synthetic
placeholder record nor the synthetic error record. -/
theorem getTrendingTopics_empty_text :
    getTrendingTopics (Except.ok "") = [] := by decide

/-- C4: the parser returns exactly the records of the matching lines, in
the input order, with non-matching lines dropped; in particular, on a
7-line input with exactly two matching lines it returns exactly those
two records in the original order. -/
theorem parseTrendingTopics_matching_order :
    (∀ lines : List String, parseTrendingTopics lines = matchingRecords lines) ∧
    parseTrendingTopics sevenLines =
      [⟨"Vaccine microchips", "High", 10⟩, ⟨"Election fraud claims", "Medium", 35⟩] := by
  have hall : ∀ lines : List String,
      parseTrendingTopics lines = matchingRecords lines := by
    intro lines
    induction lines with
    | nil => rfl
    | cons l ls ih =>
      unfold parseTrendingTopics at ih ⊢
      rw [List.filterMap_cons]
      unfold matchingRecords
      cases h : parseTrendingLine l <;> simp [h, ih]
  exact ⟨hall, by decide⟩

/-- C5: whenever more than 5 lines of the response parse, the function
returns exactly the first 5 parsed records, in the model-output order
(no re-sorting). -/
theorem getTrendingTopics_take_five (text : String)
    (h : 5 < (parseTrendingTopics (splitLinesJs text)).length) :
    getTrendingTopics (Except.ok text) =
      (parseTrendingTopics (splitLinesJs text)).take 5 := by
  simp only [getTrendingTopics]
  rw [if_pos (by omega)]

/-- Witness for C5 at a concrete six-line response. -/
theorem getTrendingTopics_take_five_witness :
    5 < (parseTrendingTopics (splitLinesJs sixLineText)).length ∧
    getTrendingTopics (Except.ok sixLineText) =
      (parseTrendingTopics (splitLinesJs sixLineText)).take 5 :=
  ⟨by decide, getTrendingTopics_take_five sixLineText (by decide)⟩

/-- C6: if the call succeeds, the text is non-empty, and no line
matches, exactly the synthetic placeholder record is returned; if the
call itself fails, exactly the synthetic error record is returned. -/
theorem getTrendingTopics_synthetic :
    (∀ text : String, parseTrendingTopics (splitLinesJs text) = [] → text ≠ "" →
      getTrendingTopics (Except.ok text) = [placeholderTopic]) ∧
    (∀ e : Unit, getTrendingTopics (Except.error e) = [errorTopic]) := by
  refine ⟨?_, fun e => rfl⟩
  intro text h hne
  simp [getTrendingTopics, h, hne]

/-- Witness for C6: a non-empty unparsable text and a failed call. -/
theorem getTrendingTopics_synthetic_witness :
    getTrendingTopics (Except.ok "hello") = [placeholderTopic] ∧
    getTrendingTopics (Except.error ()) = [errorTopic] :=
  ⟨getTrendingTopics_synthetic.1 "hello" (by decide) (by decide),
   getTrendingTopics_synthetic.2 ()⟩

/-- C2: `analyzeImageForAI` never propagates a failure: whenever the
model call fails, or it succeeds but the JSON parsing of its text fails,
the operation returns the fallback verdict (classification `Uncertain`,
confidence 0). -/
theorem analyzeImageForAI_fallback_on_failure
    (parse : List Char → Option ImageVerdict) (resp : Except Unit String)
    (h : ∀ t : String, resp = Except.ok t → cleanAndParseJson parse t.data = none) :
    analyzeImageForAI parse resp = imageFallback := by
  cases resp with
  | error e => rfl
  | ok t => simp [analyzeImageForAI, h t rfl]

/-- Witness for C2: a failed call, and a successful call whose text does
not parse. -/
theorem analyzeImageForAI_fallback_witness :
    analyzeImageForAI (fun _ => none) (Except.error ()) = imageFallback ∧
    analyzeImageForAI (fun _ => none) (Except.ok "not json") = imageFallback :=
  ⟨analyzeImageForAI_fallback_on_failure _ _ (fun _ h => nomatch h),
   analyzeImageForAI_fallback_on_failure _ _ (fun _ _ => rfl)⟩

/-- C7: a prompt that is empty or all-whitespace is rejected — the error
message is set and the gateway is not invoked (second component
`false`). -/
theorem handleGenerate_rejects_blank
    (gateway : String → Except Unit TemplateContent)
    (prompt : String) (st : TemplateState)
    (h : ∀ c ∈ prompt.data, isJsWs c = true) :
    handleGenerate gateway prompt st =
      ({ st with error := some "Prompt cannot be empty." }, false) := by
  have h1 : prompt.data.dropWhile isJsWs = [] := by
    rw [List.dropWhile_eq_nil_iff]
    intro c hc
    exact h c hc
  have htrim : (jsTrim prompt).data = [] := by
    show trimL prompt.data = []
    unfold trimL
    rw [h1]
    rfl
  simp [handleGenerate, htrim]

/-- Witness for C7: a whitespace-only prompt against the modeled
gateway, starting from the initial page state. -/
theorem handleGenerate_rejects_blank_witness :
    handleGenerate
      (fun p => Except.ok (generateAwarenessTemplateText (fun _ => none) (Except.ok p)))
      "  " ⟨false, none, none⟩ =
      (⟨false, none, some "Prompt cannot be empty."⟩, false) :=
  handleGenerate_rejects_blank _ _ _ (by decide)

/-- C9: a missing (or empty, hence falsy) credential is a fatal
start-up error — module initialization ends in the thrown error and no
gateway client is constructed — and this is the only condition under
which initialization fails. -/
theorem moduleInit_fatal_iff :
    moduleInit none = Except.error "API_KEY environment variable not set" ∧
    (∀ env : Option String,
      (∃ msg, moduleInit env = Except.error msg) ↔ (env = none ∨ env = some "")) := by
  refine ⟨rfl, fun env => ?_⟩
  cases env with
  | none => simp [moduleInit]
  | some k =>
    by_cases hk : k = "" <;> simp [moduleInit, hk]

/-- C8 (counterexample): the line
`Flat earth - Risk: Severe - Credibility: 250` parses into a record
whose risk is outside `{High, Medium, Low, Unknown}` and whose score
exceeds 100, and `getTrendingTopics` returns it as-is. -/
theorem trendingTopic_invariant_cex :
    getTrendingTopics (Except.ok "Flat earth - Risk: Severe - Credibility: 250") =
      [⟨"Flat earth", "Severe", 250⟩] ∧
    ¬ riskScoreClaim ⟨"Flat earth", "Severe", 250⟩ := by decide

/-- C8 (amended): every record `getTrendingTopics` returns on a
successful call is either the synthetic placeholder or the parse of one
of the response's lines; the parser validates neither the risk text nor
an upper bound on the (always nonnegative) score. -/
theorem trendingTopic_record_origin (text : String) (r : TrendingTopic)
    (h : r ∈ getTrendingTopics (Except.ok text)) :
    r = placeholderTopic ∨
      ∃ line ∈ splitLinesJs text, parseTrendingLine line = some r := by
  by_cases h1 : 0 < (parseTrendingTopics (splitLinesJs text)).length
  · right
    have h2 : r ∈ parseTrendingTopics (splitLinesJs text) := by
      refine List.take_subset 5 _ ?_
      simpa [getTrendingTopics, h1] using h
    exact List.mem_filterMap.mp h2
  · by_cases h3 : text = ""
    · subst h3
      simp [getTrendingTopics, h1] at h
    · left
      simpa [getTrendingTopics, h1, h3] using h

/-- Witness for the amended C8 at a concrete parsable line. -/
theorem trendingTopic_record_origin_witness :
    (⟨"Flat moon", "Low", 7⟩ : TrendingTopic) = placeholderTopic ∨
      ∃ line ∈ splitLinesJs "Flat moon - Risk: Low - Credibility: 7",
        parseTrendingLine line = some ⟨"Flat moon", "Low", 7⟩ :=
  trendingTopic_record_origin _ _ (by decide)

/-! ### Helper lemmas for the fence-stripping property (C1) -/

theorem fenceJson_eq : fenceJson = bq :: bq :: bq :: 'j' :: 's' :: 'o' :: 'n' :: [] := by
  decide

theorem fenceBare_eq : fenceBare = bq :: bq :: bq :: [] := by decide

theorem dropPrefixL_self (p l : List Char) : dropPrefixL p (p ++ l) = some l := by
  induction p with
  | nil => rfl
  | cons c ps ih => simp [dropPrefixL, ih]

theorem dropWhile_append_last {p : Char → Bool} (l : List Char) (c : Char)
    (h : p c = false) : ∃ x, (l ++ [c]).dropWhile p = x ++ [c] := by
  induction l with
  | nil => exact ⟨[], by simp [List.dropWhile_cons, h]⟩
  | cons a t ih =>
    by_cases ha : p a
    · obtain ⟨x, hx⟩ := ih
      exact ⟨x, by simp [List.dropWhile_cons, ha, hx]⟩
    · exact ⟨a :: t, by simp [List.dropWhile_cons, ha]⟩

/-- Trimming a list whose first character is not whitespace keeps that
first character. -/
theorem trimL_cons {c : Char} (t : List Char) (h : isJsWs c = false) :
    ∃ t', trimL (c :: t) = c :: t' := by
  unfold trimL
  rw [List.dropWhile_cons, h]
  simp only [Bool.false_eq_true, if_false, List.reverse_cons]
  obtain ⟨x, hx⟩ := dropWhile_append_last t.reverse c h
  rw [hx]
  exact ⟨x.reverse, by simp⟩

/-- Trimming fixes a list that starts and ends with non-whitespace. -/
theorem trimL_sandwich (c d : Char) (m : List Char)
    (hc : isJsWs c = false) (hd : isJsWs d = false) :
    trimL (c :: (m ++ [d])) = c :: (m ++ [d]) := by
  unfold trimL
  rw [List.dropWhile_cons, hc]
  simp only [Bool.false_eq_true, if_false]
  rw [show (c :: (m ++ [d])).reverse = d :: (m.reverse ++ [c]) by simp,
    List.dropWhile_cons, hd]
  simp only [Bool.false_eq_true, if_false]
  simp

/-- The fenced wrapping of any text is already trimmed. -/
theorem trimL_wrapped (l : List Char) :
    trimL (fenceJson ++ l ++ fenceBare) = fenceJson ++ l ++ fenceBare := by
  have e : fenceJson ++ l ++ fenceBare =
      bq :: ((bq :: bq :: 'j' :: 's' :: 'o' :: 'n' :: (l ++ [bq, bq])) ++ [bq]) := by
    simp [fenceJson_eq, fenceBare_eq]
  rw [e, trimL_sandwich bq bq _ (by decide) (by decide)]

theorem startsWithL_wrapped (l : List Char) :
    startsWithL (fenceJson ++ l ++ fenceBare) fenceJson = true := by
  unfold startsWithL
  rw [List.append_assoc, dropPrefixL_self]
  rfl

/-- `substring(7, length - 3)` of the fenced wrapping recovers the
wrapped text. -/
theorem substringL_wrapped (l : List Char) :
    substringL (fenceJson ++ l ++ fenceBare) 7
      (((fenceJson ++ l ++ fenceBare).length : Int) - 3) = l := by
  have hlen : (fenceJson ++ l ++ fenceBare).length = 7 + l.length + 3 := by
    simp [fenceJson_eq, fenceBare_eq]
    omega
  simp only [substringL]
  have e1 : (min (max (7 : Int) 0) ((fenceJson ++ l ++ fenceBare).length : Int)) = 7 := by
    omega
  have e2 : (min (max (((fenceJson ++ l ++ fenceBare).length : Int) - 3) 0)
      ((fenceJson ++ l ++ fenceBare).length : Int)) = 7 + (l.length : Int) := by
    omega
  rw [e1, e2]
  have e3 : (max (7 : Int) (7 + (l.length : Int))).toNat = 7 + l.length := by omega
  have e4 : (min (7 : Int) (7 + (l.length : Int))).toNat = 7 := by omega
  rw [e3, e4]
  have e5 : (fenceJson ++ l ++ fenceBare).take (7 + l.length) = fenceJson ++ l :=
    List.take_left' (by simp [fenceJson_eq]; try omega)
  rw [e5]
  exact List.drop_left' (by decide)

/-- On a fenced input, the normalizer reduces to trimming the wrapped
text. -/
theorem cleanJsonTextL_fence (l : List Char) :
    cleanJsonTextL (fenceJson ++ l ++ fenceBare) = trimL l := by
  simp only [cleanJsonTextL]
  rw [trimL_wrapped, startsWithL_wrapped]
  simp only [if_true]
  rw [substringL_wrapped]

/-- On an input whose first character is neither whitespace nor a
backquote, the normalizer reduces to trimming. -/
theorem dropPrefixL_cons_ne {p c : Char} (ps cs : List Char) (h : p ≠ c) :
    dropPrefixL (p :: ps) (c :: cs) = none := by
  simp [dropPrefixL, h]

theorem cleanJsonTextL_plain {c : Char} (t : List Char)
    (hws : isJsWs c = false) (hbq : c ≠ bq) :
    cleanJsonTextL (c :: t) = trimL (c :: t) := by
  obtain ⟨t', ht'⟩ := trimL_cons t hws
  have hne : bq ≠ c := fun e => hbq e.symm
  have h1 : startsWithL (c :: t') fenceJson = false := by
    unfold startsWithL
    rw [fenceJson_eq, dropPrefixL_cons_ne _ _ hne]
    rfl
  have h2 : startsWithL (c :: t') fenceBare = false := by
    unfold startsWithL
    rw [fenceBare_eq, dropPrefixL_cons_ne _ _ hne]
    rfl
  simp only [cleanJsonTextL]
  rw [ht', h1, h2]
  simp

theorem natDigits_head (n : Nat) : ∃ k t, natDigits n = digitChar k :: t := by
  induction n using Nat.strong_induction_on with
  | _ n ih =>
    unfold natDigits
    split
    · exact ⟨n, [], rfl⟩
    · rename_i h
      obtain ⟨k, t, e⟩ := ih (n / 10) (Nat.div_lt_self (by omega) (by omega))
      exact ⟨k, t ++ [digitChar n], by rw [e]; rfl⟩

theorem digitChar_not_ws (n : Nat) : isJsWs (digitChar n) = false ∧ digitChar n ≠ bq := by
  obtain ⟨m, hm, hlt⟩ : ∃ m, n % 10 = m ∧ m < 10 :=
    ⟨n % 10, rfl, Nat.mod_lt _ (by omega)⟩
  unfold digitChar
  rw [hm]
  interval_cases m <;> exact ⟨by decide, by decide⟩

/-- The serialized text of a JSON value starts with a character that is
neither whitespace nor a backquote. -/
theorem renderChars_head (v : JsonValue) :
    ∃ c t, renderChars v = c :: t ∧ isJsWs c = false ∧ c ≠ bq := by
  cases v with
  | null =>
    exact ⟨'n', "ull".data, by simp only [renderChars]; try decide, by decide, by decide⟩
  | bool b =>
    cases b with
    | true =>
      exact ⟨'t', "rue".data, by simp only [renderChars]; try decide, by decide,
        by decide⟩
    | false =>
      exact ⟨'f', "alse".data, by simp only [renderChars]; try decide, by decide,
        by decide⟩
  | num n =>
    cases n with
    | ofNat m =>
      obtain ⟨k, t, e⟩ := natDigits_head m
      obtain ⟨hws, hbq⟩ := digitChar_not_ws k
      exact ⟨digitChar k, t, by simp only [renderChars, intChars]; exact e, hws, hbq⟩
    | negSucc m =>
      exact ⟨'-', natDigits (m + 1), by simp only [renderChars, intChars], by decide,
        by decide⟩
  | str s =>
    exact ⟨'"', escapeChars s.data ++ ['"'],
      by simp only [renderChars, List.cons_append], by decide, by decide⟩
  | arr xs =>
    exact ⟨'[', renderArr xs ++ [']'], by simp only [renderChars, List.cons_append],
      by decide, by decide⟩
  | obj fs =>
    exact ⟨Char.ofNat 123, renderObj fs ++ [Char.ofNat 125],
      by simp only [renderChars, List.cons_append], by decide, by decide⟩

/-- C1: for every JSON value `v`, the normalizer gives the same parse
result on the text of `v` wrapped in a markdown code fence tagged
`json` as on the unwrapped text of `v`, for any parser. -/
theorem cleanAndParseJson_fence_invariant (parse : List Char → Option JsonValue)
    (v : JsonValue) :
    cleanAndParseJson parse (fenceWrapJson (renderJson v)).data =
      cleanAndParseJson parse (renderJson v).data := by
  obtain ⟨c, t, he, hws, hbq⟩ := renderChars_head v
  unfold cleanAndParseJson
  congr 1
  show cleanJsonTextL (fenceJson ++ renderChars v ++ fenceBare) =
    cleanJsonTextL (renderChars v)
  rw [cleanJsonTextL_fence, he, cleanJsonTextL_plain t hws hbq]

/-- Witness for C1 at `null` and a concrete parser. -/
theorem cleanAndParseJson_fence_invariant_witness :
    cleanAndParseJson (fun l => some (JsonValue.str ⟨l⟩))
        (fenceWrapJson (renderJson JsonValue.null)).data =
      cleanAndParseJson (fun l => some (JsonValue.str ⟨l⟩))
        (renderJson JsonValue.null).data :=
  cleanAndParseJson_fence_invariant _ _

end TruthDetect
